import Mathlib

/-!
Shallow embedding of the GA4 reporting helpers in src/ga4_api.py and
src/ga4_app.py: dimension filtering, request construction, pagination and
conversion of raw API rows into tabular records, plus the date-coercion
step of GA4AnalyticsClient.get_report.
-/

namespace GA4

/-- Payload of one dimension value carried by an API row (field `value`). -/
structure DimensionValue where
  value : String
  deriving DecidableEq

/-- Payload of one metric value carried by an API row (field `value`). -/
structure MetricValue where
  value : String
  deriving DecidableEq

/-- One raw report row: dimension values aligned positionally with the
requested dimension names, metric values aligned with the metric names. -/
structure Row where
  dimension_values : List DimensionValue
  metric_values : List MetricValue
  deriving DecidableEq

/-- A value of the dimensions_filter mapping as Python sees it: a list of
strings, a single string, or any object of another type (`other`). -/
inductive FilterValue where
  | list (vs : List String)
  | str (s : String)
  | other
  deriving DecidableEq

/-- Match types of `Filter.StringFilter.MatchType`; the source only ever
uses `CONTAINS`. -/
inductive MatchType where
  | EXACT
  | BEGINS_WITH
  | ENDS_WITH
  | CONTAINS
  | FULL_REGEXP
  | PARTIAL_REGEXP
  deriving DecidableEq

/-- Embeds `Filter.StringFilter`. -/
structure StringFilter where
  match_type : MatchType
  value : String
  deriving DecidableEq

/-- Embeds `Filter.InListFilter`. -/
structure InListFilter where
  values : List String
  deriving DecidableEq

/-- The one-of payload of a `Filter`: either a string filter or an
in-list filter (the only two alternatives exercised by the source). -/
inductive FilterOneof where
  | string_filter (f : StringFilter)
  | in_list_filter (f : InListFilter)
  deriving DecidableEq

/-- Embeds `Filter`: a field name together with its one-of payload. -/
structure Filter where
  field_name : String
  one_of : FilterOneof
  deriving DecidableEq

/-- Embeds `FilterExpression`: a leaf filter, or a logical group of
sub-expressions combined with AND (`and_group`) or OR (`or_group`). -/
inductive FilterExpression where
  | filter (f : Filter)
  | and_group (expressions : List FilterExpression)
  | or_group (expressions : List FilterExpression)

/-- Embeds one entry of `date_ranges`. -/
structure DateRange where
  start_date : String
  end_date : String

/-- Embeds `OrderBy(dimension={"dimension_name": ...})`. -/
structure OrderBy where
  dimension_name : String

/-- Embeds `{"name": dim}` entries of the dimensions list. -/
structure Dimension where
  name : String

/-- Embeds `{"name": metric}` entries of the metrics list. -/
structure Metric where
  name : String

/-- Embeds `RunReportRequest`. `dimension_filter` is `none` exactly when
the Python request dict carries no "dimension_filter" key, and likewise
for `order_bys`. -/
structure RunReportRequest where
  property : String
  date_ranges : List DateRange
  dimensions : List Dimension
  metrics : List Metric
  keep_empty_rows : Bool
  offset : Nat
  limit : Nat
  dimension_filter : Option FilterExpression
  order_bys : Option (List OrderBy)

/-- Outcome of one run of the pagination loop: normal termination with the
accumulated rows, a raised RuntimeError carrying the offset of the failing
fetch and the original cause, or fuel exhaustion (the Python loop would
still be running). -/
inductive PagOutcome where
  | ok (rows : List Row)
  | err (offset : Nat) (cause : String)
  | out_of_fuel

/-- The shared pagination loop body of `run_paginated_request` and
`GA4AnalyticsClient._run_paginated_request`: starting from `offset` with
accumulator `acc`, fetch a page; a fetch error aborts with the current
offset and the cause; an empty page terminates with the accumulated rows;
a non-empty page is appended and the offset advances by `page_size`. The
second component counts the fetch calls made. -/
def run_paginated_core (page_size : Nat) (fetch : Nat → Except String (List Row)) :
    Nat → Nat → List Row → Nat → PagOutcome × Nat
  | 0, _offset, _acc, calls => (PagOutcome.out_of_fuel, calls)
  | Nat.succ fuel, offset, acc, calls =>
    match fetch offset with
    | Except.error e => (PagOutcome.err offset e, calls + 1)
    | Except.ok rows =>
      if rows.isEmpty then (PagOutcome.ok acc, calls + 1)
      else run_paginated_core page_size fetch fuel (offset + page_size) (acc ++ rows) (calls + 1)

/-- A Python dict of string keys and string values, as an ordered
association list in insertion order. -/
abbrev Record := List (String × String)

/-- The keys of a record, in order. -/
def dictKeys (d : Record) : List String := d.map Prod.fst

/-- Python dict assignment `d[k] = v`: if the key is present its value is
updated in place, otherwise the pair is appended at the end. -/
def dictInsert (d : Record) (k : String) (v : String) : Record :=
  if k ∈ dictKeys d then d.map (fun p => if p.1 = k then (k, v) else p)
  else d ++ [(k, v)]

/-- Python dict union `d | upd` (equivalently, updating `d` with the items
of `upd` in order). -/
def dictUpdate (d upd : Record) : Record :=
  upd.foldl (fun acc kv => dictInsert acc kv.1 kv.2) d

/-- The indexed assignment loop `for i, name in enumerate(names):
d[name] = values[i].value`: walks the name list, failing (IndexError)
when the value list is exhausted first; extra values are ignored. -/
def assignValues {α : Type} (val : α → String) :
    List String → List α → Record → Option Record
  | [], _, d => some d
  | _ :: _, [], _ => none
  | n :: ns, v :: vs, d => assignValues val ns vs (dictInsert d n (val v))

/-- Builds the per-row record list of the converters; the first failing
row aborts the whole conversion (the Python exception propagates). -/
def buildRecords {α β : Type} (f : α → Option β) : List α → Option (List β)
  | [] => some []
  | a :: rest =>
    match f a with
    | none => none
    | some b =>
      match buildRecords f rest with
      | none => none
      | some bs => some (b :: bs)

/-- Left-biased choice on options. -/
def optOr {α : Type} (a b : Option α) : Option α :=
  match a with
  | some x => some x
  | none => b

/-- Python dict lookup `d[k]`: the value stored at the first entry whose
key equals `k`. -/
def dictGet : Record → String → Option String
  | [], _ => none
  | p :: rest, k => if p.1 = k then some p.2 else dictGet rest k

/-- A calendar date, the target type of the date-column coercion. -/
structure Date where
  year : Nat
  month : Nat
  day : Nat
  deriving DecidableEq

/-- Gregorian leap-year test. -/
def isLeapYear (y : Nat) : Bool :=
  (y % 4 = 0 && !(y % 100 = 0)) || y % 400 = 0

/-- Number of days in a month of a given year. -/
def daysInMonth (y m : Nat) : Nat :=
  if m = 2 then (if isLeapYear y then 29 else 28)
  else if m = 4 ∨ m = 6 ∨ m = 9 ∨ m = 11 then 30
  else 31

/-- Value of a list of decimal digit characters. -/
def digitsToNat (cs : List Char) : Nat :=
  cs.foldl (fun acc c => acc * 10 + (c.toNat - 48)) 0

/-- Models the external strict parse `pd.to_datetime(x, format="%Y%m%d")`
used by GA4AnalyticsClient.get_report: exactly eight digits, split as
YYYY MM DD, accepted only when they name a real calendar date. -/
def parseCompactDate (s : String) : Option Date :=
  let cs := s.toList
  if cs.length = 8 then
    if cs.all Char.isDigit then
      let y := digitsToNat (cs.take 4)
      let m := digitsToNat ((cs.drop 4).take 2)
      let d := digitsToNat (cs.drop 6)
      if 1 ≤ m ∧ m ≤ 12 ∧ 1 ≤ d ∧ d ≤ daysInMonth y m then some ⟨y, m, d⟩
      else none
    else none
  else none

/-- A cell of the final table: a verbatim string, or a date after the
coercion of the "date" column. -/
inductive Cell where
  | str (s : String)
  | date (d : Date)
  deriving DecidableEq

/-- A record of the final table (after the optional date coercion). -/
abbrev CRecord := List (String × Cell)

/-- A record untouched by date coercion: every value stays a string. -/
def strRecord (r : Record) : CRecord := r.map (fun p => (p.1, Cell.str p.2))

/-- Column set of the DataFrame built from a record list: the union of the
record keys in first-seen order (pandas semantics for a list of dicts). -/
def dfColumns (recs : List Record) : List String :=
  recs.foldl (fun cols r => cols ++ ((dictKeys r).filter (fun k => decide (k ∉ cols)))) []

end GA4

namespace ga4_api

open GA4

/-- Embeds MAX_ROWS_PER_REQUEST of src/ga4_api.py. -/
def MAX_ROWS_PER_REQUEST : Nat := 100000

/-- Embeds `dimension_filtering` (src/ga4_api.py lines 46-69): one in-list
filter per list-valued entry, one CONTAINS string filter per string-valued
entry, every other entry skipped. -/
def dimension_filtering : List (String × FilterValue) → List FilterExpression
  | [] => []
  | (dimension, values) :: rest =>
    match values with
    | FilterValue.list vs =>
      FilterExpression.filter ⟨dimension, FilterOneof.in_list_filter ⟨vs⟩⟩ ::
        dimension_filtering rest
    | FilterValue.str s =>
      FilterExpression.filter ⟨dimension, FilterOneof.string_filter ⟨MatchType.CONTAINS, s⟩⟩ ::
        dimension_filtering rest
    | FilterValue.other => dimension_filtering rest

/-- Embeds `create_request` (src/ga4_api.py lines 19-43). A `None` Python
argument is embedded as the empty list, which Python treats identically
(both are falsy and `xs or []` collapses them). -/
def create_request (property_id start_date end_date : String)
    (dimensions : List String) (dimensions_filter : List (String × FilterValue))
    (metrics : List String) (order_bys : List String)
    (offset : Nat) (limit : Nat) : RunReportRequest :=
  ⟨"properties/" ++ property_id,
   [⟨start_date, end_date⟩],
   dimensions.map (fun dim => ⟨dim⟩),
   metrics.map (fun metric => ⟨metric⟩),
   true,
   offset,
   limit,
   if dimensions_filter.isEmpty then none
   else some (FilterExpression.and_group (dimension_filtering dimensions_filter)),
   if order_bys.isEmpty then none
   else some (order_bys.map (fun o => ⟨o⟩))⟩

/-- Embeds `run_paginated_request` (src/ga4_api.py lines 72-94): the
pagination loop over `client.run_report`, building each page request with
`create_request` at the current offset and limit MAX_ROWS_PER_REQUEST. -/
def run_paginated_request (run_report : RunReportRequest → Except String (List Row))
    (property_id start_date end_date : String)
    (dimensions : List String) (dimensions_filter : List (String × FilterValue))
    (metrics : List String) (order_bys : List String) (fuel : Nat) : PagOutcome × Nat :=
  run_paginated_core MAX_ROWS_PER_REQUEST
    (fun offset => run_report (create_request property_id start_date end_date dimensions
      dimensions_filter metrics order_bys offset MAX_ROWS_PER_REQUEST))
    fuel 0 [] 0

/-- The message of the RuntimeError raised at src/ga4_api.py line 92. -/
def run_error_message (offset : Nat) (cause : String) : String :=
  "Failed to run request at offset " ++ toString offset ++ ": " ++ cause

/-- The record built for one row by `convert_response_to_dataframe`: the
dimension-name dict comprehension, the metric-name dict comprehension, and
their dict union, with `none` embedding an IndexError. -/
def row_record (dimensions metrics : List String) (row : Row) : Option Record :=
  match assignValues DimensionValue.value dimensions row.dimension_values [] with
  | none => none
  | some dim_dict =>
    match assignValues MetricValue.value metrics row.metric_values [] with
    | none => none
    | some met_dict => some (dictUpdate dim_dict met_dict)

/-- Embeds `convert_response_to_dataframe` (src/ga4_api.py lines 97-107),
with the DataFrame embedded as its list of records. -/
def convert_response_to_dataframe (all_data : List Row) (dimensions metrics : List String) :
    Except String (List Record) :=
  match buildRecords (row_record dimensions metrics) all_data with
  | some data => Except.ok data
  | none => Except.error "Failed to convert response to DataFrame: list index out of range"

end ga4_api

/-- Embeds the GA4AnalyticsClient of src/ga4_app.py; only the property id
takes part in request construction. -/
structure GA4AnalyticsClient where
  property_id : String

namespace GA4AnalyticsClient

open GA4

/-- Embeds GA4AnalyticsClient.MAX_ROWS_PER_REQUEST (src/ga4_app.py line 37). -/
def MAX_ROWS_PER_REQUEST : Nat := 250000

/-- Embeds `_create_filter_expressions` (src/ga4_app.py lines 88-125). -/
def create_filter_expressions : List (String × FilterValue) → List FilterExpression
  | [] => []
  | (dimension, values) :: rest =>
    match values with
    | FilterValue.list vs =>
      FilterExpression.filter ⟨dimension, FilterOneof.in_list_filter ⟨vs⟩⟩ ::
        create_filter_expressions rest
    | FilterValue.str s =>
      FilterExpression.filter ⟨dimension, FilterOneof.string_filter ⟨MatchType.CONTAINS, s⟩⟩ ::
        create_filter_expressions rest
    | FilterValue.other => create_filter_expressions rest

/-- Embeds `_create_request` (src/ga4_app.py lines 127-186). `limit` is an
optional argument; `limit or MAX_ROWS_PER_REQUEST` also maps an explicit 0
to the default, matching Python truthiness. When no ordering is supplied
and dimensions are non-empty, ordering defaults to the dimensions. -/
def create_request (self : GA4AnalyticsClient) (start_date end_date : String)
    (dimensions metrics : List String) (dimensions_filter : List (String × FilterValue))
    (order_bys : List String) (offset : Nat) (limit : Option Nat) : RunReportRequest :=
  let lim : Nat :=
    match limit with
    | none => MAX_ROWS_PER_REQUEST
    | some l => if l = 0 then MAX_ROWS_PER_REQUEST else l
  let obs : List String :=
    if order_bys.isEmpty ∧ ¬ dimensions.isEmpty then dimensions else order_bys
  ⟨"properties/" ++ self.property_id,
   [⟨start_date, end_date⟩],
   dimensions.map (fun dim => ⟨dim⟩),
   metrics.map (fun metric => ⟨metric⟩),
   true,
   offset,
   lim,
   if dimensions_filter.isEmpty then none
   else some (FilterExpression.or_group (create_filter_expressions dimensions_filter)),
   if obs.isEmpty then none
   else some (obs.map (fun o => ⟨o⟩))⟩

/-- Embeds `_run_paginated_request` (src/ga4_app.py lines 188-245). -/
def run_paginated_request (self : GA4AnalyticsClient)
    (run_report : RunReportRequest → Except String (List Row))
    (start_date end_date : String) (dimensions metrics : List String)
    (dimensions_filter : List (String × FilterValue)) (order_bys : List String)
    (fuel : Nat) : PagOutcome × Nat :=
  run_paginated_core MAX_ROWS_PER_REQUEST
    (fun offset => run_report (self.create_request start_date end_date dimensions metrics
      dimensions_filter order_bys offset (some MAX_ROWS_PER_REQUEST)))
    fuel 0 [] 0

/-- The message of the RuntimeError raised at src/ga4_app.py line 243. -/
def run_error_message (offset : Nat) (cause : String) : String :=
  "API request failed at offset " ++ toString offset ++ ": " ++ cause

/-- The record built for one row by `_convert_to_dataframe`: one dict,
filled first from the dimension names and then from the metric names. -/
def row_record (dimensions metrics : List String) (row : Row) : Option Record :=
  match assignValues DimensionValue.value dimensions row.dimension_values [] with
  | none => none
  | some row_dict => assignValues MetricValue.value metrics row.metric_values row_dict

/-- Embeds `_convert_to_dataframe` (src/ga4_app.py lines 247-285). -/
def convert_to_dataframe (self : GA4AnalyticsClient) (all_data : List Row)
    (dimensions metrics : List String) : Except String (List Record) :=
  match buildRecords (row_record dimensions metrics) all_data with
  | some data => Except.ok data
  | none => Except.error "DataFrame conversion failed: list index out of range"

/-- The result of coercing one record in the date step: a "date" value is
reparsed via `parseCompactDate` (failure embeds the pandas parse error),
every other value stays a verbatim string. -/
def coerce_date_record (r : Record) : Option CRecord :=
  buildRecords
    (fun p =>
      if p.1 = "date" then
        match parseCompactDate p.2 with
        | some d => some (p.1, Cell.date d)
        | none => none
      else some (p.1, Cell.str p.2))
    r

/-- Embeds the date-coercion step of `get_report` (src/ga4_app.py lines
330-335): when `convert_date_columns` is set and a "date" column is
present, the column is reparsed from YYYYMMDD; otherwise the table passes
through unchanged. -/
def convert_date_step (convert_date_columns : Bool) (recs : List Record) :
    Except String (List CRecord) :=
  if convert_date_columns = true ∧ "date" ∈ dfColumns recs then
    match buildRecords coerce_date_record recs with
    | some out => Except.ok out
    | none => Except.error "time data does not match format %Y%m%d"
  else Except.ok (recs.map strRecord)

end GA4AnalyticsClient

namespace GA4

/-- Written from the words of the claims about the filter builder: a
list value yields a membership (in-list) predicate on the field, a string
value yields a case-sensitive CONTAINS predicate, any other value yields
no predicate. -/
def claimEntryPredicate : String × FilterValue → Option FilterExpression
  | (field, FilterValue.list vs) =>
    some (FilterExpression.filter ⟨field, FilterOneof.in_list_filter ⟨vs⟩⟩)
  | (field, FilterValue.str s) =>
    some (FilterExpression.filter ⟨field, FilterOneof.string_filter ⟨MatchType.CONTAINS, s⟩⟩)
  | (_, FilterValue.other) => none

/-- Bool-valued test that a filter value is a Python list. -/
def FilterValue.isList : FilterValue → Bool
  | FilterValue.list _ => true
  | _ => false

/-- Written from the words of claim C7: the record expected for one row,
zipping the name sequences positionally against the value sequences. -/
def expectedRecord (dimensions metrics : List String) (row : Row) : Record :=
  dimensions.zip (row.dimension_values.map DimensionValue.value) ++
    metrics.zip (row.metric_values.map MetricValue.value)

/-- Closed form of the record built by ga4_api.row_record on a row with
enough values: dimension dict and metric dict built separately, merged by
dict union. -/
def apiRawRecord (dimensions metrics : List String) (row : Row) : Record :=
  dictUpdate (dictUpdate [] (dimensions.zip (row.dimension_values.map DimensionValue.value)))
    (dictUpdate [] (metrics.zip (row.metric_values.map MetricValue.value)))

/-- Closed form of the record built by GA4AnalyticsClient.row_record on a
row with enough values: one dict filled with the dimension pairs and then
the metric pairs. -/
def appRawRecord (dimensions metrics : List String) (row : Row) : Record :=
  dictUpdate (dictUpdate [] (dimensions.zip (row.dimension_values.map DimensionValue.value)))
    (metrics.zip (row.metric_values.map MetricValue.value))

/-- Written from the words of claim C9: the record expected after date
coercion; a "date" value becomes the parsed calendar date, every other
value stays a verbatim string. -/
def specCoercedRecord (r : Record) : CRecord :=
  r.map (fun p =>
    if p.1 = "date" then
      match parseCompactDate p.2 with
      | some d => (p.1, Cell.date d)
      | none => (p.1, Cell.str p.2)
    else (p.1, Cell.str p.2))

end GA4

namespace GA4

theorem dictKeys_nil : dictKeys [] = [] := rfl

theorem dictKeys_cons (p : String × String) (rest : Record) :
    dictKeys (p :: rest) = p.1 :: dictKeys rest := rfl

theorem dictKeys_append (d₁ d₂ : Record) :
    dictKeys (d₁ ++ d₂) = dictKeys d₁ ++ dictKeys d₂ := by
  simp [dictKeys]

theorem dictKeys_subst (d : Record) (k v : String) :
    dictKeys (d.map (fun p => if p.1 = k then (k, v) else p)) = dictKeys d := by
  induction d with
  | nil => rfl
  | cons p rest ih =>
    simp only [List.map_cons, dictKeys_cons] at ih ⊢
    by_cases h : p.1 = k
    · simp [h, ih]
    · simp [h, ih]

theorem dictKeys_dictInsert (d : Record) (k v : String) :
    dictKeys (dictInsert d k v) =
      if k ∈ dictKeys d then dictKeys d else dictKeys d ++ [k] := by
  unfold dictInsert
  by_cases h : k ∈ dictKeys d
  · rw [if_pos h, if_pos h, dictKeys_subst]
  · rw [if_neg h, if_neg h, dictKeys_append]
    rfl

theorem mem_dictKeys_dictInsert (d : Record) (k v k' : String) :
    k' ∈ dictKeys (dictInsert d k v) ↔ k' ∈ dictKeys d ∨ k' = k := by
  rw [dictKeys_dictInsert]
  by_cases h : k ∈ dictKeys d
  · rw [if_pos h]
    constructor
    · exact Or.inl
    · rintro (hm | rfl)
      · exact hm
      · exact h
  · rw [if_neg h]
    simp

theorem nodup_dictKeys_dictInsert (d : Record) (k v : String)
    (h : (dictKeys d).Nodup) : (dictKeys (dictInsert d k v)).Nodup := by
  rw [dictKeys_dictInsert]
  by_cases hk : k ∈ dictKeys d
  · simpa [hk] using h
  · rw [if_neg hk]
    exact List.Nodup.append h (List.nodup_singleton k) (by simpa using hk)

theorem length_dictInsert (d : Record) (k v : String) :
    (dictInsert d k v).length = if k ∈ dictKeys d then d.length else d.length + 1 := by
  unfold dictInsert
  by_cases h : k ∈ dictKeys d <;> simp [h]

theorem dictGet_eq_none (d : Record) (k : String) (h : k ∉ dictKeys d) :
    dictGet d k = none := by
  induction d with
  | nil => rfl
  | cons p rest ih =>
    simp only [dictKeys_cons, List.mem_cons, not_or] at h
    simp [dictGet, Ne.symm h.1, ih h.2]

theorem dictGet_append (d₁ d₂ : Record) (k : String) :
    dictGet (d₁ ++ d₂) k = optOr (dictGet d₁ k) (dictGet d₂ k) := by
  induction d₁ with
  | nil => rfl
  | cons p rest ih =>
    by_cases h : p.1 = k <;> simp [dictGet, h, ih, optOr]

theorem optOr_none_right {α : Type} (a : Option α) : optOr a none = a := by
  cases a <;> rfl

theorem optOr_assoc {α : Type} (a b c : Option α) :
    optOr (optOr a b) c = optOr a (optOr b c) := by
  cases a <;> rfl

theorem dictGet_subst_ne (d : Record) (k v k' : String) (h : k' ≠ k) :
    dictGet (d.map (fun p => if p.1 = k then (k, v) else p)) k' = dictGet d k' := by
  induction d with
  | nil => rfl
  | cons p rest ih =>
    by_cases hp : p.1 = k
    · simp [dictGet, hp, Ne.symm h, ih]
    · simp only [List.map_cons, if_neg hp]
      simp [dictGet, ih]

theorem dictGet_subst_self (d : Record) (k v : String) (h : k ∈ dictKeys d) :
    dictGet (d.map (fun p => if p.1 = k then (k, v) else p)) k = some v := by
  induction d with
  | nil => simp [dictKeys] at h
  | cons p rest ih =>
    by_cases hp : p.1 = k
    · simp [dictGet, hp]
    · have hmem : k ∈ dictKeys rest := by
        rcases List.mem_cons.mp (by simpa [dictKeys_cons] using h) with h1 | h1
        · exact absurd h1.symm hp
        · exact h1
      simp [dictGet, hp, ih hmem]

theorem dictGet_dictInsert (d : Record) (k v k' : String) :
    dictGet (dictInsert d k v) k' = if k' = k then some v else dictGet d k' := by
  unfold dictInsert
  by_cases hk : k ∈ dictKeys d
  · rw [if_pos hk]
    by_cases h : k' = k
    · subst h
      simp [dictGet_subst_self d k' v hk]
    · simp [h, dictGet_subst_ne d k v k' h]
  · rw [if_neg hk]
    rw [dictGet_append]
    by_cases h : k' = k
    · subst h
      rw [dictGet_eq_none d k' hk]
      simp [dictGet, optOr]
    · rw [if_neg h]
      simp only [dictGet, if_neg (Ne.symm h)]
      exact optOr_none_right _

theorem dictUpdate_nil (d : Record) : dictUpdate d [] = d := rfl

theorem dictUpdate_cons (d : Record) (kv : String × String) (rest : Record) :
    dictUpdate d (kv :: rest) = dictUpdate (dictInsert d kv.1 kv.2) rest := rfl

theorem mem_dictKeys_dictUpdate (d upd : Record) (k : String) :
    k ∈ dictKeys (dictUpdate d upd) ↔ k ∈ dictKeys d ∨ k ∈ dictKeys upd := by
  induction upd generalizing d with
  | nil => simp [dictUpdate_nil, dictKeys]
  | cons kv rest ih =>
    rw [dictUpdate_cons, ih, mem_dictKeys_dictInsert, dictKeys_cons]
    simp only [List.mem_cons]
    tauto

theorem nodup_dictKeys_dictUpdate (d upd : Record) (h : (dictKeys d).Nodup) :
    (dictKeys (dictUpdate d upd)).Nodup := by
  induction upd generalizing d with
  | nil => exact h
  | cons kv rest ih => exact ih _ (nodup_dictKeys_dictInsert d kv.1 kv.2 h)

theorem dictGet_dictUpdate (d upd : Record) (k : String) :
    dictGet (dictUpdate d upd) k = optOr (dictGet upd.reverse k) (dictGet d k) := by
  induction upd generalizing d with
  | nil => simp [dictUpdate_nil, dictGet, optOr]
  | cons kv rest ih =>
    rw [dictUpdate_cons, ih, List.reverse_cons, dictGet_append, optOr_assoc]
    congr 1
    rw [dictGet_dictInsert]
    by_cases h : k = kv.1
    · simp [h, dictGet, optOr]
    · simp [h, dictGet, Ne.symm h, optOr]

theorem length_dictUpdate_le (d upd : Record) :
    (dictUpdate d upd).length ≤ d.length + upd.length := by
  induction upd generalizing d with
  | nil => simp [dictUpdate_nil]
  | cons kv rest ih =>
    rw [dictUpdate_cons]
    have h1 := ih (dictInsert d kv.1 kv.2)
    have h2 : (dictInsert d kv.1 kv.2).length ≤ d.length + 1 := by
      rw [length_dictInsert]; split <;> omega
    simp only [List.length_cons]
    omega

theorem length_dictUpdate_lt (d upd : Record) (k : String)
    (h1 : k ∈ dictKeys upd) (h2 : k ∈ dictKeys d) :
    (dictUpdate d upd).length < d.length + upd.length := by
  induction upd generalizing d with
  | nil => simp [dictKeys] at h1
  | cons kv rest ih =>
    rw [dictUpdate_cons]
    rw [dictKeys_cons, List.mem_cons] at h1
    rcases h1 with h1 | h1
    · have hlen : (dictInsert d kv.1 kv.2).length = d.length := by
        rw [length_dictInsert, if_pos (h1 ▸ h2)]
      have := length_dictUpdate_le (dictInsert d kv.1 kv.2) rest
      simp only [List.length_cons]
      omega
    · have hk : k ∈ dictKeys (dictInsert d kv.1 kv.2) :=
        (mem_dictKeys_dictInsert d kv.1 kv.2 k).mpr (Or.inl h2)
      have := ih (dictInsert d kv.1 kv.2) h1 hk
      have hins : (dictInsert d kv.1 kv.2).length ≤ d.length + 1 := by
        rw [length_dictInsert]; split <;> omega
      simp only [List.length_cons]
      omega

theorem dictUpdate_fresh (d upd : Record)
    (hnd : (dictKeys upd).Nodup)
    (hdisj : ∀ k ∈ dictKeys upd, k ∉ dictKeys d) :
    dictUpdate d upd = d ++ upd := by
  induction upd generalizing d with
  | nil => simp [dictUpdate_nil]
  | cons kv rest ih =>
    obtain ⟨a, b⟩ := kv
    rw [dictUpdate_cons]
    have hka : a ∉ dictKeys d := hdisj a (by simp [dictKeys_cons])
    have hins : dictInsert d a b = d ++ [(a, b)] := by
      unfold dictInsert; rw [if_neg hka]
    rw [dictKeys_cons, List.nodup_cons] at hnd
    rw [hins, ih (d ++ [(a, b)]) hnd.2 ?_, List.append_assoc]
    · rfl
    · intro x hx
      rw [dictKeys_append]
      simp only [List.mem_append, not_or]
      refine ⟨hdisj x (by simp [dictKeys_cons, hx]), ?_⟩
      have : x ≠ a := fun hxa => hnd.1 (hxa ▸ hx)
      simpa [dictKeys] using this

theorem dictGet_reverse (d : Record) (k : String) (h : (dictKeys d).Nodup) :
    dictGet d.reverse k = dictGet d k := by
  induction d with
  | nil => rfl
  | cons p rest ih =>
    obtain ⟨a, b⟩ := p
    rw [dictKeys_cons, List.nodup_cons] at h
    rw [List.reverse_cons, dictGet_append, ih h.2]
    by_cases hk : a = k
    · subst hk
      rw [dictGet_eq_none rest a h.1]
      simp [dictGet, optOr]
    · simp [dictGet, hk, optOr_none_right]

theorem assignValues_eq {α : Type} (val : α → String) :
    ∀ (ns : List String) (vs : List α) (d : Record),
      assignValues val ns vs d =
        if ns.length ≤ vs.length then some (dictUpdate d (ns.zip (vs.map val))) else none
  | [], vs, d => by simp [assignValues, dictUpdate_nil]
  | n :: ns, [], d => by simp [assignValues]
  | n :: ns, v :: vs, d => by
    rw [assignValues, assignValues_eq val ns vs (dictInsert d n (val v))]
    simp only [List.length_cons, List.map_cons, List.zip_cons_cons, Nat.add_le_add_iff_right]
    rw [dictUpdate_cons]

theorem buildRecords_map {α β : Type} (f : α → Option β) (g : α → β) :
    ∀ (l : List α), (∀ a ∈ l, f a = some (g a)) → buildRecords f l = some (l.map g)
  | [], _ => rfl
  | a :: rest, h => by
    simp only [buildRecords, h a (by simp),
      buildRecords_map f g rest (fun x hx => h x (by simp [hx])), List.map_cons]

theorem buildRecords_none {α β : Type} (f : α → Option β) :
    ∀ (l : List α) (a : α), a ∈ l → f a = none → buildRecords f l = none
  | b :: rest, a, h, hf => by
    rcases List.mem_cons.mp h with rfl | hmem
    · simp [buildRecords, hf]
    · rw [buildRecords]
      rw [buildRecords_none f rest a hmem hf]
      cases f b <;> rfl

end GA4

namespace GA4

theorem run_paginated_core_ok (page_size : Nat) (fetch : Nat → Except String (List Row)) :
    ∀ (k : Nat) (pages : Nat → List Row) (off : Nat) (acc : List Row) (calls fuel : Nat),
      (∀ i, i < k → fetch (off + i * page_size) = Except.ok (pages i)) →
      (∀ i, i < k → pages i ≠ []) →
      fetch (off + k * page_size) = Except.ok [] →
      k + 1 ≤ fuel →
      run_paginated_core page_size fetch fuel off acc calls =
        (PagOutcome.ok (acc ++ ((List.range k).map pages).flatten), calls + (k + 1))
  | 0, pages, off, acc, calls, fuel, _h1, _h2, h3, hf => by
    obtain ⟨fuel', rfl⟩ : ∃ f, fuel = f + 1 := ⟨fuel - 1, by omega⟩
    simp only [Nat.zero_mul, Nat.add_zero] at h3
    simp [run_paginated_core, h3]
  | k + 1, pages, off, acc, calls, fuel, h1, h2, h3, hf => by
    obtain ⟨fuel', rfl⟩ : ∃ f, fuel = f + 1 := ⟨fuel - 1, by omega⟩
    have h0 : fetch off = Except.ok (pages 0) := by
      have h := h1 0 (by omega)
      simpa using h
    have hne : (pages 0).isEmpty = false := by
      cases hp : pages 0 with
      | nil => exact absurd hp (h2 0 (by omega))
      | cons a t => rfl
    rw [run_paginated_core, h0]
    simp only [hne, Bool.false_eq_true, if_false]
    rw [run_paginated_core_ok page_size fetch k (fun i => pages (i + 1)) (off + page_size)
        (acc ++ pages 0) (calls + 1) fuel'
        (fun i hi => by
          have h := h1 (i + 1) (by omega)
          rw [← h]
          congr 1
          ring)
        (fun i hi => h2 (i + 1) (by omega))
        (by
          rw [← h3]
          congr 1
          ring)
        (by omega)]
    rw [Prod.mk.injEq]
    constructor
    · rw [List.range_succ_eq_map, List.map_cons, List.map_map, List.flatten_cons]
      rw [List.append_assoc]
      rfl
    · omega

theorem run_paginated_core_err (page_size : Nat) (fetch : Nat → Except String (List Row)) :
    ∀ (m : Nat) (pages : Nat → List Row) (cause : String) (off : Nat) (acc : List Row)
      (calls fuel : Nat),
      (∀ i, i < m → fetch (off + i * page_size) = Except.ok (pages i)) →
      (∀ i, i < m → pages i ≠ []) →
      fetch (off + m * page_size) = Except.error cause →
      m + 1 ≤ fuel →
      run_paginated_core page_size fetch fuel off acc calls =
        (PagOutcome.err (off + m * page_size) cause, calls + (m + 1))
  | 0, pages, cause, off, acc, calls, fuel, _h1, _h2, h3, hf => by
    obtain ⟨fuel', rfl⟩ : ∃ f, fuel = f + 1 := ⟨fuel - 1, by omega⟩
    simp only [Nat.zero_mul, Nat.add_zero] at h3 ⊢
    simp [run_paginated_core, h3]
  | m + 1, pages, cause, off, acc, calls, fuel, h1, h2, h3, hf => by
    obtain ⟨fuel', rfl⟩ : ∃ f, fuel = f + 1 := ⟨fuel - 1, by omega⟩
    have h0 : fetch off = Except.ok (pages 0) := by
      have h := h1 0 (by omega)
      simpa using h
    have hne : (pages 0).isEmpty = false := by
      cases hp : pages 0 with
      | nil => exact absurd hp (h2 0 (by omega))
      | cons a t => rfl
    rw [run_paginated_core, h0]
    simp only [hne, Bool.false_eq_true, if_false]
    rw [run_paginated_core_err page_size fetch m (fun i => pages (i + 1)) cause (off + page_size)
        (acc ++ pages 0) (calls + 1) fuel'
        (fun i hi => by
          have h := h1 (i + 1) (by omega)
          rw [← h]
          congr 1
          ring)
        (fun i hi => h2 (i + 1) (by omega))
        (by
          rw [← h3]
          congr 1
          ring)
        (by omega)]
    rw [Prod.mk.injEq]
    constructor
    · congr 1
      ring
    · omega

theorem flatten_length_const {α : Type} (pages : Nat → List α) :
    ∀ (k c : Nat), (∀ i, i < k → (pages i).length = c) →
      (((List.range k).map pages).flatten).length = k * c
  | 0, c, _ => by simp
  | k + 1, c, h => by
    rw [List.range_succ, List.map_append, List.flatten_append, List.length_append]
    rw [flatten_length_const pages k c (fun i hi => h i (by omega))]
    simp [h k (by omega), Nat.succ_mul]

end GA4

namespace GA4

theorem dimension_filtering_eq_filterMap :
    ∀ df : List (String × FilterValue),
      ga4_api.dimension_filtering df = df.filterMap claimEntryPredicate
  | [] => rfl
  | (dimension, values) :: rest => by
    cases values <;>
      simp [ga4_api.dimension_filtering, claimEntryPredicate, List.filterMap_cons,
        dimension_filtering_eq_filterMap rest]

theorem create_filter_expressions_eq_filterMap :
    ∀ df : List (String × FilterValue),
      GA4AnalyticsClient.create_filter_expressions df = df.filterMap claimEntryPredicate
  | [] => rfl
  | (dimension, values) :: rest => by
    cases values <;>
      simp [GA4AnalyticsClient.create_filter_expressions, claimEntryPredicate,
        List.filterMap_cons, create_filter_expressions_eq_filterMap rest]

theorem filterMap_claimEntryPredicate_length :
    ∀ df : List (String × FilterValue), (∀ p ∈ df, p.2.isList = true) →
      (df.filterMap claimEntryPredicate).length = df.length
  | [], _ => rfl
  | (d, v) :: rest, h => by
    have hv := h (d, v) (by simp)
    cases v with
    | list vs =>
      simp only [List.filterMap_cons, claimEntryPredicate, List.length_cons]
      rw [filterMap_claimEntryPredicate_length rest (fun q hq => h q (by simp [hq]))]
    | str s => simp [FilterValue.isList] at hv
    | other => simp [FilterValue.isList] at hv

/-- C3: the filter builders (`dimension_filtering` and
`_create_filter_expressions`) produce exactly one predicate per entry
whose value is a list or a string — an in-list membership predicate for a
list value, a case-sensitive CONTAINS predicate for a string value — and
silently skip every entry of any other value type (the functions are
total, so no error is ever raised and the field is simply dropped); in
particular, when every value is a list, the predicate count equals the
mapping size. -/
theorem claim_C3_filter_builder (df : List (String × FilterValue)) :
    ga4_api.dimension_filtering df = df.filterMap claimEntryPredicate
    ∧ GA4AnalyticsClient.create_filter_expressions df = df.filterMap claimEntryPredicate
    ∧ ((∀ p ∈ df, p.2.isList = true) →
        (ga4_api.dimension_filtering df).length = df.length
        ∧ (GA4AnalyticsClient.create_filter_expressions df).length = df.length) := by
  refine ⟨dimension_filtering_eq_filterMap df, create_filter_expressions_eq_filterMap df, ?_⟩
  intro h
  rw [dimension_filtering_eq_filterMap df, create_filter_expressions_eq_filterMap df]
  exact ⟨filterMap_claimEntryPredicate_length df h, filterMap_claimEntryPredicate_length df h⟩

/-- Witness for C3 at a concrete all-list mapping of size two. -/
theorem claim_C3_filter_builder_witness :
    (∀ p ∈ [("continent", FilterValue.list ["Europe"]), ("country", FilterValue.list [])],
        (Prod.snd p).isList = true)
    ∧ (ga4_api.dimension_filtering
        [("continent", FilterValue.list ["Europe"]), ("country", FilterValue.list [])]).length
      = 2 := by
  refine ⟨by decide, ?_⟩
  exact ((claim_C3_filter_builder
    [("continent", FilterValue.list ["Europe"]), ("country", FilterValue.list [])]).2.2
    (by decide)).1

/-- C4: on every non-empty filter mapping the two request builders place
the same predicate list under different group operators — an AND group in
ga4_api.create_request, an OR group in GA4AnalyticsClient._create_request
— so their dimension_filter fields always differ. -/
theorem claim_C4_and_vs_or (self : GA4AnalyticsClient)
    (property_id start_date end_date : String)
    (dimensions metrics order_bys : List String)
    (df : List (String × FilterValue)) (offset limit : Nat) (lim : Option Nat)
    (h : df ≠ []) :
    (ga4_api.create_request property_id start_date end_date dimensions df metrics order_bys
        offset limit).dimension_filter
      = some (FilterExpression.and_group (ga4_api.dimension_filtering df))
    ∧ (self.create_request start_date end_date dimensions metrics df order_bys offset
        lim).dimension_filter
      = some (FilterExpression.or_group (ga4_api.dimension_filtering df))
    ∧ (ga4_api.create_request property_id start_date end_date dimensions df metrics order_bys
        offset limit).dimension_filter
      ≠ (self.create_request start_date end_date dimensions metrics df order_bys offset
        lim).dimension_filter := by
  have hne : df.isEmpty = false := by
    cases df
    · exact absurd rfl h
    · rfl
  have h1 : (ga4_api.create_request property_id start_date end_date dimensions df metrics
      order_bys offset limit).dimension_filter
      = some (FilterExpression.and_group (ga4_api.dimension_filtering df)) := by
    simp [ga4_api.create_request, hne]
  have h2 : (self.create_request start_date end_date dimensions metrics df order_bys offset
      lim).dimension_filter
      = some (FilterExpression.or_group (ga4_api.dimension_filtering df)) := by
    simp [GA4AnalyticsClient.create_request, hne, create_filter_expressions_eq_filterMap,
      dimension_filtering_eq_filterMap]
  refine ⟨h1, h2, ?_⟩
  rw [h1, h2]
  simp

/-- Witness for C4 at a concrete one-entry mapping. -/
theorem claim_C4_and_vs_or_witness :
    (ga4_api.create_request "pid" "s" "e" [] [("continent", FilterValue.list ["Europe"])]
        [] [] 0 100000).dimension_filter
    ≠ ((⟨"pid"⟩ : GA4AnalyticsClient).create_request "s" "e" [] []
        [("continent", FilterValue.list ["Europe"])] [] 0 none).dimension_filter :=
  (claim_C4_and_vs_or ⟨"pid"⟩ "pid" "s" "e" [] [] []
    [("continent", FilterValue.list ["Europe"])] 0 100000 none (by simp)).2.2

/-- C5 counterexample: an explicit limit above the fixed maximum is passed
through uncapped by both request builders, refuting the capping claim. -/
theorem claim_C5_counterexample :
    (ga4_api.create_request "p" "s" "e" [] [] [] [] 0 100001).limit = 100001
    ∧ ¬ (ga4_api.create_request "p" "s" "e" [] [] [] [] 0 100001).limit
        ≤ ga4_api.MAX_ROWS_PER_REQUEST
    ∧ ((⟨"pid"⟩ : GA4AnalyticsClient).create_request "s" "e" [] [] [] [] 0
        (some 250001)).limit = 250001
    ∧ ¬ ((⟨"pid"⟩ : GA4AnalyticsClient).create_request "s" "e" [] [] [] [] 0
        (some 250001)).limit ≤ GA4AnalyticsClient.MAX_ROWS_PER_REQUEST := by
  exact ⟨rfl, by decide, rfl, by decide⟩

/-- C5 amended: the limit field of a built request equals the caller
supplied limit verbatim — it is defaulted to the fixed maximum (100000 in
ga4_api, 250000 in ga4_app, the latter also treating a falsy 0 as absent)
only when no limit is supplied — and it is never capped. -/
theorem claim_C5_limit_default (self : GA4AnalyticsClient)
    (property_id start_date end_date : String)
    (dimensions metrics order_bys : List String)
    (df : List (String × FilterValue)) (offset l l2 : Nat) :
    (ga4_api.create_request property_id start_date end_date dimensions df metrics order_bys
        offset l).limit = l
    ∧ (self.create_request start_date end_date dimensions metrics df order_bys offset
        none).limit = GA4AnalyticsClient.MAX_ROWS_PER_REQUEST
    ∧ (self.create_request start_date end_date dimensions metrics df order_bys offset
        (some l2)).limit
      = (if l2 = 0 then GA4AnalyticsClient.MAX_ROWS_PER_REQUEST else l2) := by
  refine ⟨rfl, rfl, ?_⟩
  simp [GA4AnalyticsClient.create_request]

/-- C6: with an empty filter mapping, both request builders omit the
dimension_filter field entirely (it is `none`, not an empty group). -/
theorem claim_C6_empty_filter (self : GA4AnalyticsClient)
    (property_id start_date end_date : String)
    (dimensions metrics order_bys : List String) (offset limit : Nat) (lim : Option Nat) :
    (ga4_api.create_request property_id start_date end_date dimensions [] metrics order_bys
        offset limit).dimension_filter = none
    ∧ (self.create_request start_date end_date dimensions metrics [] order_bys offset
        lim).dimension_filter = none :=
  ⟨rfl, rfl⟩

end GA4

namespace GA4

/-- C1: for a fetch capability returning k full pages of page_size rows at
offsets 0, page_size, 2·page_size, … followed by an empty page, both
paginators start at offset 0, advance the offset by the fixed page size
after each non-empty page, make exactly k+1 fetch calls, terminate
successfully on the empty page, and return the k × page_size rows in fetch
order; k = 0 (first page empty) yields one call and an empty result. -/
theorem claim_C1_pagination
    (run_report₁ run_report₂ : RunReportRequest → Except String (List Row))
    (self : GA4AnalyticsClient) (property_id start_date end_date : String)
    (dimensions metrics order_bys : List String) (df : List (String × FilterValue))
    (pages₁ pages₂ : Nat → List Row) (k fuel₁ fuel₂ : Nat)
    (h1 : ∀ i, i < k →
      run_report₁ (ga4_api.create_request property_id start_date end_date dimensions df
        metrics order_bys (i * ga4_api.MAX_ROWS_PER_REQUEST) ga4_api.MAX_ROWS_PER_REQUEST)
        = Except.ok (pages₁ i))
    (h2 : ∀ i, i < k → (pages₁ i).length = ga4_api.MAX_ROWS_PER_REQUEST)
    (h3 : run_report₁ (ga4_api.create_request property_id start_date end_date dimensions df
        metrics order_bys (k * ga4_api.MAX_ROWS_PER_REQUEST) ga4_api.MAX_ROWS_PER_REQUEST)
        = Except.ok [])
    (h4 : k + 1 ≤ fuel₁)
    (h5 : ∀ i, i < k →
      run_report₂ (self.create_request start_date end_date dimensions metrics df order_bys
        (i * GA4AnalyticsClient.MAX_ROWS_PER_REQUEST)
        (some GA4AnalyticsClient.MAX_ROWS_PER_REQUEST)) = Except.ok (pages₂ i))
    (h6 : ∀ i, i < k → (pages₂ i).length = GA4AnalyticsClient.MAX_ROWS_PER_REQUEST)
    (h7 : run_report₂ (self.create_request start_date end_date dimensions metrics df order_bys
        (k * GA4AnalyticsClient.MAX_ROWS_PER_REQUEST)
        (some GA4AnalyticsClient.MAX_ROWS_PER_REQUEST)) = Except.ok [])
    (h8 : k + 1 ≤ fuel₂) :
    ga4_api.run_paginated_request run_report₁ property_id start_date end_date dimensions df
        metrics order_bys fuel₁
      = (PagOutcome.ok (((List.range k).map pages₁).flatten), k + 1)
    ∧ (((List.range k).map pages₁).flatten).length = k * ga4_api.MAX_ROWS_PER_REQUEST
    ∧ self.run_paginated_request run_report₂ start_date end_date dimensions metrics df
        order_bys fuel₂
      = (PagOutcome.ok (((List.range k).map pages₂).flatten), k + 1)
    ∧ (((List.range k).map pages₂).flatten).length
      = k * GA4AnalyticsClient.MAX_ROWS_PER_REQUEST := by
  refine ⟨?_, flatten_length_const pages₁ k _ h2, ?_, flatten_length_const pages₂ k _ h6⟩
  · unfold ga4_api.run_paginated_request
    rw [run_paginated_core_ok ga4_api.MAX_ROWS_PER_REQUEST
        (fun offset => run_report₁ (ga4_api.create_request property_id start_date end_date
          dimensions df metrics order_bys offset ga4_api.MAX_ROWS_PER_REQUEST))
        k pages₁ 0 [] 0 fuel₁
        (fun i hi => by simpa using h1 i hi)
        (fun i hi hnil => by
          have hlen := h2 i hi
          rw [hnil] at hlen
          simp [ga4_api.MAX_ROWS_PER_REQUEST] at hlen)
        (by simpa using h3)
        h4]
    simp
  · unfold GA4AnalyticsClient.run_paginated_request
    rw [run_paginated_core_ok GA4AnalyticsClient.MAX_ROWS_PER_REQUEST
        (fun offset => run_report₂ (self.create_request start_date end_date dimensions metrics
          df order_bys offset (some GA4AnalyticsClient.MAX_ROWS_PER_REQUEST)))
        k pages₂ 0 [] 0 fuel₂
        (fun i hi => by simpa using h5 i hi)
        (fun i hi hnil => by
          have hlen := h6 i hi
          rw [hnil] at hlen
          simp [GA4AnalyticsClient.MAX_ROWS_PER_REQUEST] at hlen)
        (by simpa using h7)
        h8]
    simp

/-- Witness for C1: one full page of 100000 rows (respectively 250000)
followed by an empty page; both paginators make two fetch calls and return
that page. -/
theorem claim_C1_pagination_witness :
    ga4_api.run_paginated_request
        (fun req => if req.offset = 0
          then Except.ok (List.replicate 100000 (⟨[], []⟩ : Row)) else Except.ok [])
        "p" "s" "e" [] [] [] [] 2
      = (PagOutcome.ok (((List.range 1).map
          (fun _ => List.replicate 100000 (⟨[], []⟩ : Row))).flatten), 2)
    ∧ (⟨"pid"⟩ : GA4AnalyticsClient).run_paginated_request
        (fun req => if req.offset = 0
          then Except.ok (List.replicate 250000 (⟨[], []⟩ : Row)) else Except.ok [])
        "s" "e" [] [] [] [] 2
      = (PagOutcome.ok (((List.range 1).map
          (fun _ => List.replicate 250000 (⟨[], []⟩ : Row))).flatten), 2) := by
  have h := claim_C1_pagination
    (fun req => if req.offset = 0
      then Except.ok (List.replicate 100000 (⟨[], []⟩ : Row)) else Except.ok [])
    (fun req => if req.offset = 0
      then Except.ok (List.replicate 250000 (⟨[], []⟩ : Row)) else Except.ok [])
    ⟨"pid"⟩ "p" "s" "e" [] [] [] []
    (fun _ => List.replicate 100000 (⟨[], []⟩ : Row))
    (fun _ => List.replicate 250000 (⟨[], []⟩ : Row)) 1 2 2
    (fun i hi => by
      rw [Nat.lt_one_iff] at hi
      subst hi
      rfl)
    (fun i hi => by
      rw [Nat.lt_one_iff] at hi
      subst hi
      rw [List.length_replicate]
      rfl)
    rfl
    (by omega)
    (fun i hi => by
      rw [Nat.lt_one_iff] at hi
      subst hi
      rfl)
    (fun i hi => by
      rw [Nat.lt_one_iff] at hi
      subst hi
      rw [List.length_replicate]
      rfl)
    rfl
    (by omega)
  exact ⟨h.1, h.2.2.1⟩

/-- C2: when the fetch capability fails at the (m+1)-st call (after m
non-empty pages), both paginators make exactly m+1 fetch calls, abort with
an error instead of producing a row list, and the raised message names the
offset m × page_size of the failing request, wrapping the original
cause. -/
theorem claim_C2_pagination_failure
    (run_report₁ run_report₂ : RunReportRequest → Except String (List Row))
    (self : GA4AnalyticsClient) (property_id start_date end_date : String)
    (dimensions metrics order_bys : List String) (df : List (String × FilterValue))
    (pages₁ pages₂ : Nat → List Row) (m fuel₁ fuel₂ : Nat) (cause₁ cause₂ : String)
    (h1 : ∀ i, i < m →
      run_report₁ (ga4_api.create_request property_id start_date end_date dimensions df
        metrics order_bys (i * ga4_api.MAX_ROWS_PER_REQUEST) ga4_api.MAX_ROWS_PER_REQUEST)
        = Except.ok (pages₁ i))
    (h2 : ∀ i, i < m → pages₁ i ≠ [])
    (h3 : run_report₁ (ga4_api.create_request property_id start_date end_date dimensions df
        metrics order_bys (m * ga4_api.MAX_ROWS_PER_REQUEST) ga4_api.MAX_ROWS_PER_REQUEST)
        = Except.error cause₁)
    (h4 : m + 1 ≤ fuel₁)
    (h5 : ∀ i, i < m →
      run_report₂ (self.create_request start_date end_date dimensions metrics df order_bys
        (i * GA4AnalyticsClient.MAX_ROWS_PER_REQUEST)
        (some GA4AnalyticsClient.MAX_ROWS_PER_REQUEST)) = Except.ok (pages₂ i))
    (h6 : ∀ i, i < m → pages₂ i ≠ [])
    (h7 : run_report₂ (self.create_request start_date end_date dimensions metrics df order_bys
        (m * GA4AnalyticsClient.MAX_ROWS_PER_REQUEST)
        (some GA4AnalyticsClient.MAX_ROWS_PER_REQUEST)) = Except.error cause₂)
    (h8 : m + 1 ≤ fuel₂) :
    ga4_api.run_paginated_request run_report₁ property_id start_date end_date dimensions df
        metrics order_bys fuel₁
      = (PagOutcome.err (m * ga4_api.MAX_ROWS_PER_REQUEST) cause₁, m + 1)
    ∧ ga4_api.run_error_message (m * ga4_api.MAX_ROWS_PER_REQUEST) cause₁
      = "Failed to run request at offset " ++ toString (m * ga4_api.MAX_ROWS_PER_REQUEST)
        ++ ": " ++ cause₁
    ∧ self.run_paginated_request run_report₂ start_date end_date dimensions metrics df
        order_bys fuel₂
      = (PagOutcome.err (m * GA4AnalyticsClient.MAX_ROWS_PER_REQUEST) cause₂, m + 1)
    ∧ GA4AnalyticsClient.run_error_message (m * GA4AnalyticsClient.MAX_ROWS_PER_REQUEST) cause₂
      = "API request failed at offset "
        ++ toString (m * GA4AnalyticsClient.MAX_ROWS_PER_REQUEST) ++ ": " ++ cause₂ := by
  refine ⟨?_, rfl, ?_, rfl⟩
  · unfold ga4_api.run_paginated_request
    rw [run_paginated_core_err ga4_api.MAX_ROWS_PER_REQUEST
        (fun offset => run_report₁ (ga4_api.create_request property_id start_date end_date
          dimensions df metrics order_bys offset ga4_api.MAX_ROWS_PER_REQUEST))
        m pages₁ cause₁ 0 [] 0 fuel₁
        (fun i hi => by simpa using h1 i hi)
        h2
        (by simpa using h3)
        h4]
    simp
  · unfold GA4AnalyticsClient.run_paginated_request
    rw [run_paginated_core_err GA4AnalyticsClient.MAX_ROWS_PER_REQUEST
        (fun offset => run_report₂ (self.create_request start_date end_date dimensions metrics
          df order_bys offset (some GA4AnalyticsClient.MAX_ROWS_PER_REQUEST)))
        m pages₂ cause₂ 0 [] 0 fuel₂
        (fun i hi => by simpa using h5 i hi)
        h6
        (by simpa using h7)
        h8]
    simp

/-- Witness for C2: the very first fetch call fails; both paginators stop
after exactly one call and surface the offset 0 and the cause. -/
theorem claim_C2_pagination_failure_witness :
    ga4_api.run_paginated_request (fun _ => Except.error "boom") "p" "s" "e" [] [] [] [] 1
      = (PagOutcome.err 0 "boom", 1)
    ∧ (⟨"pid"⟩ : GA4AnalyticsClient).run_paginated_request (fun _ => Except.error "boom")
        "s" "e" [] [] [] [] 1
      = (PagOutcome.err 0 "boom", 1) := by
  have h := claim_C2_pagination_failure
    (fun _ => Except.error "boom") (fun _ => Except.error "boom")
    ⟨"pid"⟩ "p" "s" "e" [] [] [] [] (fun _ => []) (fun _ => []) 0 1 1 "boom" "boom"
    (fun i hi => absurd hi (Nat.not_lt_zero i))
    (fun i hi => absurd hi (Nat.not_lt_zero i))
    rfl
    (by omega)
    (fun i hi => absurd hi (Nat.not_lt_zero i))
    (fun i hi => absurd hi (Nat.not_lt_zero i))
    rfl
    (by omega)
  exact ⟨by simpa using h.1, by simpa using h.2.2.1⟩

end GA4

namespace GA4

theorem dictKeys_zip (ns vs : List String) (h : ns.length ≤ vs.length) :
    dictKeys (ns.zip vs) = ns := by
  unfold dictKeys
  exact List.map_fst_zip ns vs h

theorem api_row_record_eq (dimensions metrics : List String) (row : Row) :
    ga4_api.row_record dimensions metrics row =
      if dimensions.length ≤ row.dimension_values.length
          ∧ metrics.length ≤ row.metric_values.length
      then some (apiRawRecord dimensions metrics row) else none := by
  unfold ga4_api.row_record
  rw [assignValues_eq, assignValues_eq]
  by_cases h1 : dimensions.length ≤ row.dimension_values.length
  · by_cases h2 : metrics.length ≤ row.metric_values.length
    · simp only [List.length_map, h1, h2, if_true, and_self, apiRawRecord]
    · simp only [List.length_map, h1, h2, if_true, if_false, and_false]
  · simp only [List.length_map, h1, if_false, false_and]

theorem app_row_record_eq (dimensions metrics : List String) (row : Row) :
    GA4AnalyticsClient.row_record dimensions metrics row =
      if dimensions.length ≤ row.dimension_values.length
          ∧ metrics.length ≤ row.metric_values.length
      then some (appRawRecord dimensions metrics row) else none := by
  unfold GA4AnalyticsClient.row_record
  by_cases h1 : dimensions.length ≤ row.dimension_values.length
  · have hB : assignValues DimensionValue.value dimensions row.dimension_values [] =
        some (dictUpdate [] (dimensions.zip (row.dimension_values.map DimensionValue.value))) := by
      rw [assignValues_eq, if_pos h1]
    simp only [hB]
    rw [assignValues_eq]
    by_cases h2 : metrics.length ≤ row.metric_values.length
    · rw [if_pos h2, if_pos ⟨h1, h2⟩]
      rfl
    · rw [if_neg h2, if_neg (by tauto)]
  · have hB : assignValues DimensionValue.value dimensions row.dimension_values [] = none := by
      rw [assignValues_eq, if_neg h1]
    simp only [hB]
    rw [if_neg (by tauto)]

theorem raw_record_fresh (dimensions metrics : List String) (row : Row)
    (hnd : (dimensions ++ metrics).Nodup)
    (h1 : dimensions.length ≤ row.dimension_values.length)
    (h2 : metrics.length ≤ row.metric_values.length) :
    apiRawRecord dimensions metrics row = expectedRecord dimensions metrics row
    ∧ appRawRecord dimensions metrics row = expectedRecord dimensions metrics row := by
  rw [List.nodup_append] at hnd
  obtain ⟨hd, hm, hdisj⟩ := hnd
  have h1m : dimensions.length ≤ (row.dimension_values.map DimensionValue.value).length := by
    simpa using h1
  have h2m : metrics.length ≤ (row.metric_values.map MetricValue.value).length := by
    simpa using h2
  have hkd : dictKeys (dimensions.zip (row.dimension_values.map DimensionValue.value))
      = dimensions := dictKeys_zip _ _ h1m
  have hkm : dictKeys (metrics.zip (row.metric_values.map MetricValue.value))
      = metrics := dictKeys_zip _ _ h2m
  have hA : dictUpdate [] (dimensions.zip (row.dimension_values.map DimensionValue.value))
      = dimensions.zip (row.dimension_values.map DimensionValue.value) := by
    have h := dictUpdate_fresh [] (dimensions.zip (row.dimension_values.map DimensionValue.value))
      (by rw [hkd]; exact hd) (by intro a _ha; simp [dictKeys])
    simpa using h
  have hB : dictUpdate [] (metrics.zip (row.metric_values.map MetricValue.value))
      = metrics.zip (row.metric_values.map MetricValue.value) := by
    have h := dictUpdate_fresh [] (metrics.zip (row.metric_values.map MetricValue.value))
      (by rw [hkm]; exact hm) (by intro a _ha; simp [dictKeys])
    simpa using h
  have hAB : dictUpdate (dimensions.zip (row.dimension_values.map DimensionValue.value))
      (metrics.zip (row.metric_values.map MetricValue.value))
      = dimensions.zip (row.dimension_values.map DimensionValue.value)
        ++ metrics.zip (row.metric_values.map MetricValue.value) := by
    apply dictUpdate_fresh
    · rw [hkm]; exact hm
    · intro a ha
      rw [hkm] at ha
      rw [hkd]
      exact fun hda => hdisj hda ha
  constructor
  · unfold apiRawRecord
    rw [hA, hB, hAB]
    rfl
  · unfold appRawRecord
    rw [hA, hAB]
    rfl

/-- C7 amended: when the D+M column names are pairwise distinct, both
tabulators map N rows carrying exactly D dimension values and M metric
values to exactly N records whose keys are the D+M names in order, with
every value copied verbatim as a string from the positionally aligned row
value; without distinctness a record collapses duplicate keys (see the
counterexample and claim C10). -/
theorem claim_C7_tabulation (self : GA4AnalyticsClient) (all_data : List Row)
    (dimensions metrics : List String)
    (hnd : (dimensions ++ metrics).Nodup)
    (hlen : ∀ row ∈ all_data, row.dimension_values.length = dimensions.length
        ∧ row.metric_values.length = metrics.length) :
    ga4_api.convert_response_to_dataframe all_data dimensions metrics
      = Except.ok (all_data.map (expectedRecord dimensions metrics))
    ∧ self.convert_to_dataframe all_data dimensions metrics
      = Except.ok (all_data.map (expectedRecord dimensions metrics))
    ∧ ∀ row ∈ all_data,
        dictKeys (expectedRecord dimensions metrics row) = dimensions ++ metrics
        ∧ (expectedRecord dimensions metrics row).length
          = dimensions.length + metrics.length := by
  have hper : ∀ row ∈ all_data,
      ga4_api.row_record dimensions metrics row
        = some (expectedRecord dimensions metrics row)
      ∧ GA4AnalyticsClient.row_record dimensions metrics row
        = some (expectedRecord dimensions metrics row) := by
    intro row hrow
    obtain ⟨e1, e2⟩ := hlen row hrow
    have h1 : dimensions.length ≤ row.dimension_values.length := by omega
    have h2 : metrics.length ≤ row.metric_values.length := by omega
    have hfresh := raw_record_fresh dimensions metrics row hnd h1 h2
    constructor
    · rw [api_row_record_eq, if_pos ⟨h1, h2⟩, hfresh.1]
    · rw [app_row_record_eq, if_pos ⟨h1, h2⟩, hfresh.2]
  refine ⟨?_, ?_, ?_⟩
  · unfold ga4_api.convert_response_to_dataframe
    rw [buildRecords_map _ _ all_data (fun a ha => (hper a ha).1)]
  · unfold GA4AnalyticsClient.convert_to_dataframe
    rw [buildRecords_map _ _ all_data (fun a ha => (hper a ha).2)]
  · intro row hrow
    obtain ⟨e1, e2⟩ := hlen row hrow
    constructor
    · unfold expectedRecord
      rw [dictKeys_append, dictKeys_zip _ _ (by simp [e1]), dictKeys_zip _ _ (by simp [e2])]
    · unfold expectedRecord
      rw [List.length_append, List.length_zip, List.length_zip]
      simp [e1, e2]

/-- C7 counterexample: with the name "x" used both as the dimension and as
the metric, the produced record has a single key, not D+M = 2 keys, and
holds the metric value. -/
theorem claim_C7_counterexample :
    ga4_api.convert_response_to_dataframe [⟨[⟨"a"⟩], [⟨"b"⟩]⟩] ["x"] ["x"]
      = Except.ok [[("x", "b")]]
    ∧ (⟨"pid"⟩ : GA4AnalyticsClient).convert_to_dataframe [⟨[⟨"a"⟩], [⟨"b"⟩]⟩] ["x"] ["x"]
      = Except.ok [[("x", "b")]]
    ∧ ([("x", "b")] : Record).length
      ≠ (["x"] : List String).length + (["x"] : List String).length :=
  ⟨rfl, rfl, by decide⟩

/-- Witness for C7 at one row with distinct names. -/
theorem claim_C7_tabulation_witness :
    ga4_api.convert_response_to_dataframe [⟨[⟨"a"⟩], [⟨"1"⟩]⟩] ["d"] ["m"]
      = Except.ok [[("d", "a"), ("m", "1")]]
    ∧ (⟨"pid"⟩ : GA4AnalyticsClient).convert_to_dataframe [⟨[⟨"a"⟩], [⟨"1"⟩]⟩] ["d"] ["m"]
      = Except.ok [[("d", "a"), ("m", "1")]] := by
  have h := claim_C7_tabulation ⟨"pid"⟩ [⟨[⟨"a"⟩], [⟨"1"⟩]⟩] ["d"] ["m"]
    (by decide) (by decide)
  exact ⟨h.1.trans rfl, h.2.1.trans rfl⟩

/-- C8 amended: the tabulators fail — wrapping the underlying IndexError,
with no result table — exactly when some row carries fewer dimension
values than dimension names or fewer metric values than metric names; a
row with extra values is truncated silently instead of raising (see the
counterexample), so "any mismatch" weakens to "any shortfall". -/
theorem claim_C8_short_row_fails (self : GA4AnalyticsClient) (all_data : List Row)
    (dimensions metrics : List String) (row : Row) (hrow : row ∈ all_data)
    (hshort : row.dimension_values.length < dimensions.length
        ∨ row.metric_values.length < metrics.length) :
    ga4_api.convert_response_to_dataframe all_data dimensions metrics
      = Except.error "Failed to convert response to DataFrame: list index out of range"
    ∧ self.convert_to_dataframe all_data dimensions metrics
      = Except.error "DataFrame conversion failed: list index out of range" := by
  have hc : ¬ (dimensions.length ≤ row.dimension_values.length
      ∧ metrics.length ≤ row.metric_values.length) := by omega
  have hnone₁ : ga4_api.row_record dimensions metrics row = none := by
    rw [api_row_record_eq, if_neg hc]
  have hnone₂ : GA4AnalyticsClient.row_record dimensions metrics row = none := by
    rw [app_row_record_eq, if_neg hc]
  constructor
  · unfold ga4_api.convert_response_to_dataframe
    rw [buildRecords_none _ all_data row hrow hnone₁]
  · unfold GA4AnalyticsClient.convert_to_dataframe
    rw [buildRecords_none _ all_data row hrow hnone₂]

/-- C8 counterexample: a row with more dimension values than dimension
names is a shape mismatch, yet both converters succeed and silently drop
the extra value instead of raising. -/
theorem claim_C8_counterexample :
    ([⟨"a"⟩, ⟨"b"⟩] : List DimensionValue).length ≠ (["d"] : List String).length
    ∧ ga4_api.convert_response_to_dataframe [⟨[⟨"a"⟩, ⟨"b"⟩], []⟩] ["d"] []
      = Except.ok [[("d", "a")]]
    ∧ (⟨"pid"⟩ : GA4AnalyticsClient).convert_to_dataframe [⟨[⟨"a"⟩, ⟨"b"⟩], []⟩] ["d"] []
      = Except.ok [[("d", "a")]] :=
  ⟨by decide, rfl, rfl⟩

/-- Witness for C8 at a concrete too-short row. -/
theorem claim_C8_short_row_fails_witness :
    ga4_api.convert_response_to_dataframe [⟨[], [⟨"1"⟩]⟩] ["d"] ["m"]
      = Except.error "Failed to convert response to DataFrame: list index out of range"
    ∧ (⟨"pid"⟩ : GA4AnalyticsClient).convert_to_dataframe [⟨[], [⟨"1"⟩]⟩] ["d"] ["m"]
      = Except.error "DataFrame conversion failed: list index out of range" :=
  claim_C8_short_row_fails ⟨"pid"⟩ [⟨[], [⟨"1"⟩]⟩] ["d"] ["m"] ⟨[], [⟨"1"⟩]⟩
    (by simp) (by decide)

end GA4

namespace GA4

theorem mem_dfColumns_aux (recs : List Record) :
    ∀ (cols : List String) (a : String),
      a ∈ recs.foldl (fun cs r => cs ++ ((dictKeys r).filter (fun k => decide (k ∉ cs)))) cols
        ↔ a ∈ cols ∨ ∃ r ∈ recs, a ∈ dictKeys r := by
  induction recs with
  | nil => intro cols a; simp
  | cons r rest ih =>
    intro cols a
    rw [List.foldl_cons, ih]
    constructor
    · rintro (h | h)
      · rw [List.mem_append] at h
        rcases h with h | h
        · exact Or.inl h
        · rw [List.mem_filter] at h
          exact Or.inr ⟨r, by simp, h.1⟩
      · obtain ⟨r2, hr2, ha⟩ := h
        exact Or.inr ⟨r2, by simp [hr2], ha⟩
    · rintro (h | ⟨r2, hr2, ha⟩)
      · left
        rw [List.mem_append]
        exact Or.inl h
      · rcases List.mem_cons.mp hr2 with rfl | hmem
        · by_cases hc : a ∈ cols
          · left
            rw [List.mem_append]
            exact Or.inl hc
          · left
            rw [List.mem_append]
            right
            rw [List.mem_filter]
            exact ⟨ha, by simpa using hc⟩
        · exact Or.inr ⟨r2, hmem, ha⟩

theorem mem_dfColumns (recs : List Record) (a : String) :
    a ∈ dfColumns recs ↔ ∃ r ∈ recs, a ∈ dictKeys r := by
  unfold dfColumns
  rw [mem_dfColumns_aux]
  simp

/-- C9: with convert_date_columns enabled, a produced table carrying a
column literally named "date" whose values are valid compact YYYYMMDD
strings has each such value reparsed into the equal calendar date (for
instance "20250601" becomes June 1, 2025) while every other value stays a
verbatim string; a table without a "date" column passes through the
coercion step of get_report unchanged — absence of the column is a no-op,
not an error. -/
theorem claim_C9_date_coercion (recs : List Record)
    (hvalid : ∀ r ∈ recs, ∀ p ∈ r, p.1 = "date" → (parseCompactDate p.2).isSome = true) :
    GA4AnalyticsClient.convert_date_step true recs = Except.ok (recs.map specCoercedRecord)
    ∧ (∀ recs₂ : List Record, "date" ∉ dfColumns recs₂ →
        GA4AnalyticsClient.convert_date_step true recs₂ = Except.ok (recs₂.map strRecord))
    ∧ parseCompactDate "20250601" = some ⟨2025, 6, 1⟩ := by
  have hstep : ∀ recs₂ : List Record, "date" ∉ dfColumns recs₂ →
      GA4AnalyticsClient.convert_date_step true recs₂ = Except.ok (recs₂.map strRecord) := by
    intro recs₂ h
    unfold GA4AnalyticsClient.convert_date_step
    rw [if_neg (by simp [h])]
  refine ⟨?_, hstep, by decide⟩
  have hrec : ∀ r ∈ recs, GA4AnalyticsClient.coerce_date_record r
      = some (specCoercedRecord r) := by
    intro r hr
    unfold GA4AnalyticsClient.coerce_date_record specCoercedRecord
    apply buildRecords_map
    intro p hp
    by_cases hk : p.1 = "date"
    · obtain ⟨d, hd⟩ := Option.isSome_iff_exists.mp (hvalid r hr p hp hk)
      simp [hk, hd]
    · simp [hk]
  by_cases hmem : "date" ∈ dfColumns recs
  · unfold GA4AnalyticsClient.convert_date_step
    rw [if_pos ⟨rfl, hmem⟩, buildRecords_map _ _ recs hrec]
  · rw [hstep recs hmem]
    have : ∀ r ∈ recs, strRecord r = specCoercedRecord r := by
      intro r hr
      unfold strRecord specCoercedRecord
      apply List.map_congr_left
      intro p hp
      have hk : p.1 ≠ "date" := by
        intro hk
        exact hmem ((mem_dfColumns recs "date").mpr
          ⟨r, hr, by simpa [dictKeys, hk] using List.mem_map_of_mem Prod.fst hp⟩)
      simp [hk]
    rw [List.map_congr_left this]

/-- Witness for C9 at a concrete one-row table with a valid date column. -/
theorem claim_C9_date_coercion_witness :
    GA4AnalyticsClient.convert_date_step true [[("date", "20250601"), ("sessions", "5")]]
      = Except.ok [[("date", Cell.date ⟨2025, 6, 1⟩), ("sessions", Cell.str "5")]] := by
  have h := claim_C9_date_coercion [[("date", "20250601"), ("sessions", "5")]] (by decide)
  exact h.1.trans rfl

end GA4

namespace GA4

theorem dictGet_reverse_none (P : Record) (k : String) (h : k ∉ dictKeys P) :
    dictGet P.reverse k = none := by
  apply dictGet_eq_none
  unfold dictKeys at h ⊢
  rw [List.map_reverse]
  simpa using h

theorem dictGet_last (P₁ P₂ : Record) (k v : String) (h : k ∉ dictKeys P₂) :
    dictGet ((P₁ ++ (k, v) :: P₂).reverse) k = some v := by
  rw [List.reverse_append, List.reverse_cons, List.append_assoc, dictGet_append,
    dictGet_reverse_none P₂ k h]
  simp [dictGet, optOr]

theorem count_eq_one_of_nodup_mem {l : List String} {a : String}
    (hn : l.Nodup) (ha : a ∈ l) : l.count a = 1 := by
  have h1 : 0 < l.count a := List.count_pos_iff.mpr ha
  have h2 := List.nodup_iff_count_le_one.mp hn a
  omega

theorem raw_record_dup_facts (dimensions ms₁ ms₂ : List String) (name : String) (row : Row)
    (hdim : name ∈ dimensions) (hlast : name ∉ ms₂)
    (e1 : row.dimension_values.length = dimensions.length)
    (e2 : row.metric_values.length = (ms₁ ++ name :: ms₂).length) :
    ((dictKeys (apiRawRecord dimensions (ms₁ ++ name :: ms₂) row)).count name = 1
      ∧ dictGet (apiRawRecord dimensions (ms₁ ++ name :: ms₂) row) name
        = (row.metric_values.map MetricValue.value)[ms₁.length]?
      ∧ (apiRawRecord dimensions (ms₁ ++ name :: ms₂) row).length
        < dimensions.length + (ms₁ ++ name :: ms₂).length)
    ∧ ((dictKeys (appRawRecord dimensions (ms₁ ++ name :: ms₂) row)).count name = 1
      ∧ dictGet (appRawRecord dimensions (ms₁ ++ name :: ms₂) row) name
        = (row.metric_values.map MetricValue.value)[ms₁.length]?
      ∧ (appRawRecord dimensions (ms₁ ++ name :: ms₂) row).length
        < dimensions.length + (ms₁ ++ name :: ms₂).length) := by
  unfold apiRawRecord appRawRecord
  set mvals := row.metric_values.map MetricValue.value with hmvals
  set dvals := row.dimension_values.map DimensionValue.value with hdvals
  have hml : mvals.length = ms₁.length + ms₂.length + 1 := by
    rw [hmvals, List.length_map, e2]
    simp only [List.length_append, List.length_cons]
    omega
  have hdl : dvals.length = dimensions.length := by
    rw [hdvals, List.length_map, e1]
  have hj : ms₁.length < mvals.length := by omega
  have htake : (mvals.take ms₁.length).length = ms₁.length := by
    rw [List.length_take]
    omega
  have hsplit : mvals
      = mvals.take ms₁.length ++ mvals[ms₁.length] :: mvals.drop (ms₁.length + 1) := by
    conv_lhs => rw [← List.take_append_drop ms₁.length mvals]
    rw [List.drop_eq_getElem_cons hj]
  have hzip : (ms₁ ++ name :: ms₂).zip mvals
      = ms₁.zip (mvals.take ms₁.length)
        ++ (name, mvals[ms₁.length]) :: ms₂.zip (mvals.drop (ms₁.length + 1)) := by
    conv_lhs => rw [hsplit]
    rw [List.zip_append htake.symm, List.zip_cons_cons]
  have hkm2 : dictKeys (ms₂.zip (mvals.drop (ms₁.length + 1))) = ms₂ :=
    dictKeys_zip _ _ (by rw [List.length_drop]; omega)
  have hlastget : dictGet (((ms₁ ++ name :: ms₂).zip mvals).reverse) name
      = some mvals[ms₁.length] := by
    rw [hzip]
    exact dictGet_last _ _ _ _ (by rw [hkm2]; exact hlast)
  have hkm : dictKeys ((ms₁ ++ name :: ms₂).zip mvals) = ms₁ ++ name :: ms₂ :=
    dictKeys_zip _ _ (by simp only [List.length_append, List.length_cons]; omega)
  have hkd : dictKeys (dimensions.zip dvals) = dimensions :=
    dictKeys_zip _ _ (by omega)
  have hndA : (dictKeys (dictUpdate [] (dimensions.zip dvals))).Nodup :=
    nodup_dictKeys_dictUpdate [] _ (by simp [dictKeys])
  have hmemA : name ∈ dictKeys (dictUpdate [] (dimensions.zip dvals)) := by
    rw [mem_dictKeys_dictUpdate, hkd]
    exact Or.inr hdim
  have hlenA : (dictUpdate [] (dimensions.zip dvals)).length ≤ dimensions.length := by
    have h := length_dictUpdate_le [] (dimensions.zip dvals)
    have hz : (dimensions.zip dvals).length ≤ dimensions.length := by
      rw [List.length_zip]
      exact min_le_left _ _
    simp only [List.length_nil] at h
    omega
  have hlenM : ((ms₁ ++ name :: ms₂).zip mvals).length ≤ (ms₁ ++ name :: ms₂).length := by
    rw [List.length_zip]
    exact min_le_left _ _
  have hmemM : name ∈ dictKeys ((ms₁ ++ name :: ms₂).zip mvals) := by
    rw [hkm]
    simp
  -- facts for the app-style record: one dict updated with the metric pairs
  have hndR : (dictKeys (dictUpdate (dictUpdate [] (dimensions.zip dvals))
      ((ms₁ ++ name :: ms₂).zip mvals))).Nodup :=
    nodup_dictKeys_dictUpdate _ _ hndA
  have hmemR : name ∈ dictKeys (dictUpdate (dictUpdate [] (dimensions.zip dvals))
      ((ms₁ ++ name :: ms₂).zip mvals)) := by
    rw [mem_dictKeys_dictUpdate]
    exact Or.inr hmemM
  have hgetR : dictGet (dictUpdate (dictUpdate [] (dimensions.zip dvals))
      ((ms₁ ++ name :: ms₂).zip mvals)) name = mvals[ms₁.length]? := by
    rw [dictGet_dictUpdate, hlastget, List.getElem?_eq_getElem hj]
    rfl
  have hltR : (dictUpdate (dictUpdate [] (dimensions.zip dvals))
      ((ms₁ ++ name :: ms₂).zip mvals)).length
      < dimensions.length + (ms₁ ++ name :: ms₂).length := by
    have h := length_dictUpdate_lt (dictUpdate [] (dimensions.zip dvals))
      ((ms₁ ++ name :: ms₂).zip mvals) name hmemM hmemA
    omega
  -- facts for the api-style record: the metric dict is built separately and merged
  have hndB : (dictKeys (dictUpdate [] ((ms₁ ++ name :: ms₂).zip mvals))).Nodup :=
    nodup_dictKeys_dictUpdate [] _ (by simp [dictKeys])
  have hmemB : name ∈ dictKeys (dictUpdate [] ((ms₁ ++ name :: ms₂).zip mvals)) := by
    rw [mem_dictKeys_dictUpdate]
    exact Or.inr hmemM
  have hgetB : dictGet (dictUpdate [] ((ms₁ ++ name :: ms₂).zip mvals)) name
      = some mvals[ms₁.length] := by
    rw [dictGet_dictUpdate, hlastget]
    rfl
  have hndR2 : (dictKeys (dictUpdate (dictUpdate [] (dimensions.zip dvals))
      (dictUpdate [] ((ms₁ ++ name :: ms₂).zip mvals)))).Nodup :=
    nodup_dictKeys_dictUpdate _ _ hndA
  have hmemR2 : name ∈ dictKeys (dictUpdate (dictUpdate [] (dimensions.zip dvals))
      (dictUpdate [] ((ms₁ ++ name :: ms₂).zip mvals))) := by
    rw [mem_dictKeys_dictUpdate]
    exact Or.inr hmemB
  have hgetR2 : dictGet (dictUpdate (dictUpdate [] (dimensions.zip dvals))
      (dictUpdate [] ((ms₁ ++ name :: ms₂).zip mvals))) name = mvals[ms₁.length]? := by
    rw [dictGet_dictUpdate, dictGet_reverse _ name hndB, hgetB,
      List.getElem?_eq_getElem hj]
    rfl
  have hlenB : (dictUpdate [] ((ms₁ ++ name :: ms₂).zip mvals)).length
      ≤ ((ms₁ ++ name :: ms₂).zip mvals).length := by
    have h := length_dictUpdate_le [] ((ms₁ ++ name :: ms₂).zip mvals)
    simp only [List.length_nil] at h
    omega
  have hltR2 : (dictUpdate (dictUpdate [] (dimensions.zip dvals))
      (dictUpdate [] ((ms₁ ++ name :: ms₂).zip mvals))).length
      < dimensions.length + (ms₁ ++ name :: ms₂).length := by
    have h := length_dictUpdate_lt (dictUpdate [] (dimensions.zip dvals))
      (dictUpdate [] ((ms₁ ++ name :: ms₂).zip mvals)) name hmemB hmemA
    omega
  exact ⟨⟨count_eq_one_of_nodup_mem hndR2 hmemR2, hgetR2, hltR2⟩,
    ⟨count_eq_one_of_nodup_mem hndR hmemR, hgetR, hltR⟩⟩

end GA4

namespace GA4

/-- C10: in both tabulators, for every row set where a name occurs among
the dimensions and also among the metrics (its last metric occurrence is
at position ms₁.length), each output record contains that name as a key
exactly once, its value is the positionally aligned metric value — written
after the dimension values, it overwrites the dimension value — and the
record has fewer than D+M keys; the D+M-keys guarantee therefore holds
only when the D+M names are pairwise distinct. -/
theorem claim_C10_duplicate_name (self : GA4AnalyticsClient) (all_data : List Row)
    (dimensions ms₁ ms₂ : List String) (name : String)
    (hdim : name ∈ dimensions) (hlast : name ∉ ms₂)
    (hlen : ∀ row ∈ all_data,
      row.dimension_values.length = dimensions.length
      ∧ row.metric_values.length = (ms₁ ++ name :: ms₂).length) :
    ga4_api.convert_response_to_dataframe all_data dimensions (ms₁ ++ name :: ms₂)
      = Except.ok (all_data.map (apiRawRecord dimensions (ms₁ ++ name :: ms₂)))
    ∧ self.convert_to_dataframe all_data dimensions (ms₁ ++ name :: ms₂)
      = Except.ok (all_data.map (appRawRecord dimensions (ms₁ ++ name :: ms₂)))
    ∧ ∀ row ∈ all_data,
        ((dictKeys (apiRawRecord dimensions (ms₁ ++ name :: ms₂) row)).count name = 1
          ∧ dictGet (apiRawRecord dimensions (ms₁ ++ name :: ms₂) row) name
            = (row.metric_values.map MetricValue.value)[ms₁.length]?
          ∧ (apiRawRecord dimensions (ms₁ ++ name :: ms₂) row).length
            < dimensions.length + (ms₁ ++ name :: ms₂).length)
        ∧ ((dictKeys (appRawRecord dimensions (ms₁ ++ name :: ms₂) row)).count name = 1
          ∧ dictGet (appRawRecord dimensions (ms₁ ++ name :: ms₂) row) name
            = (row.metric_values.map MetricValue.value)[ms₁.length]?
          ∧ (appRawRecord dimensions (ms₁ ++ name :: ms₂) row).length
            < dimensions.length + (ms₁ ++ name :: ms₂).length) := by
  refine ⟨?_, ?_, ?_⟩
  · unfold ga4_api.convert_response_to_dataframe
    rw [buildRecords_map _ _ all_data (fun row hrow => ?_)]
    obtain ⟨e1, e2⟩ := hlen row hrow
    rw [api_row_record_eq, if_pos ⟨by omega, by omega⟩]
  · unfold GA4AnalyticsClient.convert_to_dataframe
    rw [buildRecords_map _ _ all_data (fun row hrow => ?_)]
    obtain ⟨e1, e2⟩ := hlen row hrow
    rw [app_row_record_eq, if_pos ⟨by omega, by omega⟩]
  · intro row hrow
    obtain ⟨e1, e2⟩ := hlen row hrow
    exact raw_record_dup_facts dimensions ms₁ ms₂ name row hdim hlast e1 e2

/-- Witness for C10 at one row with the single name "x" used both as the
dimension and as the metric: the record keeps the metric value "b". -/
theorem claim_C10_duplicate_name_witness :
    ga4_api.convert_response_to_dataframe [⟨[⟨"a"⟩], [⟨"b"⟩]⟩] ["x"] ([] ++ "x" :: [])
      = Except.ok [apiRawRecord ["x"] ([] ++ "x" :: []) ⟨[⟨"a"⟩], [⟨"b"⟩]⟩]
    ∧ dictGet (apiRawRecord ["x"] ([] ++ "x" :: []) ⟨[⟨"a"⟩], [⟨"b"⟩]⟩) "x" = some "b"
    ∧ dictGet (appRawRecord ["x"] ([] ++ "x" :: []) ⟨[⟨"a"⟩], [⟨"b"⟩]⟩) "x" = some "b" := by
  have h := claim_C10_duplicate_name ⟨"pid"⟩ [⟨[⟨"a"⟩], [⟨"b"⟩]⟩] ["x"] [] [] "x"
    (by decide) (by decide) (by decide)
  have hfacts := h.2.2 ⟨[⟨"a"⟩], [⟨"b"⟩]⟩ (by simp)
  refine ⟨h.1.trans rfl, ?_, ?_⟩
  · rw [hfacts.1.2.1]
    rfl
  · rw [hfacts.2.2.1]
    rfl

end GA4
